import Mathlib

/-!
Verification of the battlesearch scan pipeline (src/main.rs, src/search.rs).

The Rust sources are shallowly embedded below:
* `str_to_id` embeds `search.rs::str_to_id` (strip non-alphanumerics, lowercase);
* `check_log` embeds `BattleSearcher::check_log`, with the external JSON
  field-extraction engine modelled by its documented contract: an
  `ExtractedFields` record holding, for each of the four fixed paths
  (`$.p1`, `$.p2`, `$.winner`, `$.endType`), the raw value bytes (decoded to a
  string) when the field is present, and `none` otherwise;
* the worker loop of `main.rs::main` is embedded as `worker_run` over the list
  of tasks received on the worker's queue;
* `handle_dir`/`walkEntries` embed `main.rs::handle_dir` over a model of the
  file system (`Fsys`), recording every dispatched `File` send together with
  the round-robin cursor value used for it.
-/

deriving instance DecidableEq for Except

namespace Battlesearch

/-- Embeds `search.rs::str_to_id`: remove every character that is not an ASCII
letter or digit, then lowercase the remainder. -/
def str_to_id (s : String) : String :=
  List.asString ((s.toList.filter Char.isAlphanum).map Char.toLower)

/-- Fuel-indexed helper for `string_remove_all`: removes every (leftmost,
non-overlapping) occurrence of `pat` from the character list. -/
def removeAllAux (pat : List Char) : Nat → List Char → List Char
  | 0, s => s
  | _ + 1, [] => []
  | fuel + 1, c :: rest =>
    if List.isPrefixOf pat (c :: rest) then
      removeAllAux pat fuel (rest.drop (pat.length - 1))
    else
      c :: removeAllAux pat fuel rest

/-- Embeds Rust `str::replace(pat, "")` as used in `check_log`: remove every
occurrence of `pat` in `s`, scanning left to right. -/
def string_remove_all (pat s : String) : String :=
  List.asString (removeAllAux pat.toList s.toList.length s.toList)

/-- The four extraction results for the fixed paths `$.p1`, `$.p2`, `$.winner`,
`$.endType`; each entry is the raw value bytes when present (e.g. a JSON string
value keeps its surrounding quotes). -/
structure ExtractedFields where
  p1 : Option String
  p2 : Option String
  winner : Option String
  endType : Option String
deriving DecidableEq

/-- The content of a file as seen by `check_log`: either `fs::read` fails, or
the bytes are read and field extraction yields an `ExtractedFields`. -/
inductive FileData where
  | unreadable
  | readable (fields : ExtractedFields)
deriving DecidableEq

/-- Embeds `search.rs::BattleSearchError` (the `Thread`/`Join` variants and the
payload of the io variant are not needed by any claim). -/
inductive BattleSearchError where
  | FaultyJSON (msg : String)
  | Path (msg : String)
  | io_error
deriving DecidableEq

/-- Embeds `search.rs::BattleSearcher` (the per-worker `json_parser` field is
the modelled extraction engine and carries no state we need). -/
structure BattleSearcher where
  user_id : String
  wins_only : Bool
  forfeits_only : Bool
deriving DecidableEq

/-- Embeds `BattleSearcher::new`. -/
def BattleSearcher.new (username : String) (wins_only forfeits_only : Bool) :
    BattleSearcher :=
  ⟨str_to_id username, wins_only, forfeits_only⟩

/-- Embeds `search.rs::bytes_to_id`. -/
def bytes_to_id : Option String → Option String
  | some b => some (str_to_id b)
  | none => none

/-- Embeds the `is_forfeit` computation of `check_log`: the raw `endType`
bytes, when present, must equal the quoted token `"forfeit"`. -/
def is_forfeit_of : Option String → Bool
  | some bytes => bytes == "\"forfeit\""
  | none => false

/-- Embeds the `searched_user_won` computation of `check_log`: the winner id,
when present, must equal the searched user id. -/
def searched_user_won_of (winner_id : Option String) (user_id : String) : Bool :=
  match winner_id with
  | some winner => winner == user_id
  | none => false

/-- Embeds the `win_str` computation of `check_log`. -/
def win_str_of (winner_id : Option String) (is_forfeit : Bool) : String :=
  match winner_id with
  | some winner => winner ++ " won " ++ (if is_forfeit then "by forfeit" else "normally")
  | none => "there was no winner"

/-- Embeds the `room` computation of `check_log`: the file name (with the
`"unknown file"` fallback) with every occurrence of `.log.json` removed. -/
def room_of (fileName : Option String) : String :=
  string_remove_all ".log.json"
    (match fileName with
     | some s => s
     | none => "unknown file")

/-- Embeds the `println!` format string of `check_log`. -/
def format_line (date room p1id p2id win_str : String) : String :=
  "(" ++ date ++ ") <<" ++ room ++ ">> " ++ p1id ++ " vs. " ++ p2id ++ " (" ++ win_str ++ ")"

/-- Embeds `BattleSearcher::check_log`. The returned value is `.error e` when
the Rust function returns `Err(e)`, `.ok none` when it returns `Ok(())`
without printing, and `.ok (some line)` when it prints `line`. -/
def check_log (s : BattleSearcher) (fileName : Option String) (date : String)
    (data : FileData) : Except BattleSearchError (Option String) :=
  match data with
  | .unreadable => .error .io_error
  | .readable json =>
    match bytes_to_id json.p1 with
    | none => .error (.FaultyJSON "No p1 value")
    | some p1id =>
      match bytes_to_id json.p2 with
      | none => .error (.FaultyJSON "No p2 value")
      | some p2id =>
        let p1_is_searched_user := p1id == s.user_id
        let p2_is_searched_user := p2id == s.user_id
        if !p1_is_searched_user && !p2_is_searched_user then
          .ok none
        else
          let winner_id := bytes_to_id json.winner
          let searched_user_won := searched_user_won_of winner_id s.user_id
          if !searched_user_won && s.wins_only then
            .ok none
          else
            let is_forfeit := is_forfeit_of json.endType
            if !is_forfeit && s.forfeits_only then
              .ok none
            else
              .ok (some (format_line date (room_of fileName) p1id p2id
                (win_str_of winner_id is_forfeit)))

/-- Embeds `search.rs::ToSend`: the message type of a worker's queue. A `File`
task carries the path (modelled by its optional file name) and the context
label; the content found at the path is bundled into the task so that the
worker model stays a pure function. -/
inductive Task where
  | File (fileName : Option String) (date : String) (data : FileData)
  | Done
deriving DecidableEq

/-- Whether a task is the `Done` (terminate) signal. -/
def Task.isDone : Task → Bool
  | .Done => true
  | .File _ _ _ => false

/-- The two states of the worker state machine. -/
inductive WorkerState where
  | Running
  | Terminated
deriving DecidableEq

/-- The observable behaviour of one worker: the lines it printed to standard
output, the diagnostics it wrote to standard error, and its final state. -/
structure WorkerResult where
  output : List String
  logs : List String
  state : WorkerState
deriving DecidableEq

/-- Embeds the `eprintln!` diagnostic of the worker loop in `main.rs::main`. -/
def worker_log_line (fileName : Option String) (e : BattleSearchError) : String :=
  "Error parsing " ++
    (match fileName with
     | some f => f
     | none => "?") ++
    (match e with
     | .FaultyJSON m => ": FaultyJSON " ++ m
     | .Path m => ": Path " ++ m
     | .io_error => ": IO error")

/-- The effect of one `File` task on a worker: the printed lines and logged
diagnostics produced by `check_log` for that task. -/
def run_file (s : BattleSearcher) (fileName : Option String) (date : String)
    (data : FileData) : List String × List String :=
  match check_log s fileName date data with
  | .ok (some line) => ([line], [])
  | .ok none => ([], [])
  | .error e => ([], [worker_log_line fileName e])

/-- Embeds the worker loop of `main.rs::main` over the sequence of tasks
received on the worker's queue: `File` tasks are processed in order (an error
is logged and the loop continues), `Done` terminates the loop, and an
exhausted-but-unterminated queue models `recv` failing on a closed channel
(logged, then the worker returns). -/
def worker_run (s : BattleSearcher) : List Task → WorkerResult
  | [] => ⟨[], ["receive error: channel closed"], .Terminated⟩
  | Task.Done :: _ => ⟨[], [], .Terminated⟩
  | Task.File fileName date data :: rest =>
    let r := run_file s fileName date data
    let w := worker_run s rest
    ⟨r.1 ++ w.output, r.2 ++ w.logs, w.state⟩

/-- The cumulative output and diagnostics of processing every `File` task of a
queue (the reference behaviour a fully drained worker must exhibit). -/
def drain (s : BattleSearcher) : List Task → List String × List String
  | [] => ([], [])
  | Task.Done :: rest => drain s rest
  | Task.File fileName date data :: rest =>
    let r := run_file s fileName date data
    let w := drain s rest
    (r.1 ++ w.1, r.2 ++ w.2)

/-- Embeds the shutdown protocol of `main.rs::main`: after all dispatch calls
have completed, exactly one `Done` is sent to every worker's queue. -/
def shutdown (queues : List (List Task)) : List (List Task) :=
  queues.map (fun q => q ++ [Task.Done])

/-- The number of `Done` (terminate) tasks in a queue. -/
def count_terminates (q : List Task) : Nat :=
  (q.filter Task.isDone).length

/-- A model of one file-system object, as observed by `main.rs::handle_dir`:
* `errEntry` — the `read_dir` iterator yields `Err(_)` for this entry;
* `statError` — `DirEntry::file_type()` fails on this entry;
* `file` — a regular file, with the result of `get_filename` on its path;
* `dirUnreadable` — a directory on which `read_dir()` fails;
* `dir` — a directory with the result of `get_filename` and its entries. -/
inductive Fsys where
  | errEntry
  | statError
  | file (fileName : Option String)
  | dirUnreadable
  | dir (fileName : Option String) (entries : List Fsys)

/-- Whether an entry is a regular file. -/
def Fsys.isFile : Fsys → Bool
  | .file _ => true
  | _ => false

/-- One dispatched send: the worker index chosen by the round-robin cursor and
the payload of the `ToSend::File` message. -/
structure Dispatch where
  worker : Nat
  fileName : Option String
  date : String
deriving DecidableEq

/-- Embeds the entry loop of `main.rs::handle_dir` for one directory whose
`get_filename` produced `date`: `idx` is the `current_sender_idx` cursor, `W`
is `threads.len()`. Returns every send performed (also those before a failure)
together with `Ok` of the final cursor value, or the error that aborted the
loop. `Err` entries are skipped silently; a `file_type` failure, an unreadable
subdirectory, a subdirectory without a valid file name, and any failure inside
a recursive call are propagated by `?`; recursing into a subdirectory restarts
the cursor at `0` and leaves the caller's cursor untouched. -/
def walkEntries (W : Nat) : String → List Fsys → Nat →
    List Dispatch × Except BattleSearchError Nat
  | _, [], idx => ([], Except.ok idx)
  | date, .errEntry :: rest, idx => walkEntries W date rest idx
  | _, .statError :: _, _ => ([], Except.error .io_error)
  | _, .dirUnreadable :: _, _ => ([], Except.error .io_error)
  | _, .dir none _ :: _, _ =>
    ([], Except.error (.Path "Couldn't get filename"))
  | date, .dir (some d) sub :: rest, idx =>
    match walkEntries W d sub 0 with
    | (ds, Except.error e) => (ds, Except.error e)
    | (ds, Except.ok _) =>
      match walkEntries W date rest idx with
      | (ds2, r) => (ds ++ ds2, r)
  | date, .file nm :: rest, idx =>
    match walkEntries W date rest ((idx + 1) % W) with
    | (ds, r) => ((⟨idx, nm, date⟩ : Dispatch) :: ds, r)

/-- Embeds `main.rs::handle_dir` applied to one root: `read_dir` must succeed
(so the root must be a readable directory) and `get_filename` must produce a
name; then the entry loop `walkEntries` runs with the cursor at `0`. -/
def handle_dir (W : Nat) (root : Fsys) : List Dispatch × Except BattleSearchError Unit :=
  match root with
  | .dir none _ => ([], Except.error (.Path "Couldn't get filename"))
  | .dir (some date) entries =>
    match walkEntries W date entries 0 with
    | (ds, Except.ok _) => (ds, Except.ok ())
    | (ds, Except.error e) => (ds, Except.error e)
  | _ => ([], Except.error .io_error)

/-- Modelled from the spec (spec-side reference definition, not from the
source): the label of every file is the name of the directory whose entry list
directly contains it — its immediate parent.  Yields the `(file name, label)`
pairs of a walk in traversal order. -/
def parentLabels (date : String) : List Fsys → List (Option String × String)
  | [] => []
  | .errEntry :: rest => parentLabels date rest
  | .statError :: rest => parentLabels date rest
  | .dirUnreadable :: rest => parentLabels date rest
  | .dir none _ :: rest => parentLabels date rest
  | .dir (some d) sub :: rest => parentLabels d sub ++ parentLabels date rest
  | .file nm :: rest => (nm, date) :: parentLabels date rest

/-- Modelled from the spec (spec-side reference definition, not from the
source): build the room name by removing only a trailing `.log.json` suffix
from the file name. -/
def spec_trailing_room (fileName : String) : String :=
  if List.isSuffixOf ".log.json".toList fileName.toList then
    List.asString
      (fileName.toList.take (fileName.toList.length - ".log.json".toList.length))
  else fileName

/-- Both branches of `handle_dir` on a named, readable directory forward the
dispatch list of the entry loop unchanged. -/
theorem handle_dir_fst (W : Nat) (date : String) (es : List Fsys) :
    (handle_dir W (Fsys.dir (some date) es)).1 = (walkEntries W date es 0).1 := by
  rcases h : walkEntries W date es 0 with ⟨ds, r⟩
  cases r <;> simp [handle_dir, h]

/-- Round-robin cursor invariant: if the cursor starts below `W`, every send
performed by the entry loop uses a worker index below `W`. -/
theorem walkEntries_worker_lt (W : Nat) (hW : 0 < W) (date : String)
    (es : List Fsys) (idx : Nat) :
    idx < W → ∀ d ∈ (walkEntries W date es idx).1, d.worker < W := by
  induction date, es, idx using walkEntries.induct W with
  | case1 date idx =>
    intro _ d hd
    simp [walkEntries] at hd
  | case2 date rest idx ih =>
    intro hidx d hd
    rw [walkEntries] at hd
    exact ih hidx d hd
  | case3 date rest idx =>
    intro _ d hd
    simp [walkEntries] at hd
  | case4 date rest idx =>
    intro _ d hd
    simp [walkEntries] at hd
  | case5 date sub rest idx =>
    intro _ d hd
    simp [walkEntries] at hd
  | case6 date d sub rest idx ds e hsub ih =>
    intro _ x hx
    rw [walkEntries] at hx
    rw [hsub] at hx
    exact ih hW x (by rw [hsub]; exact hx)
  | case7 date d sub rest idx ds k hsub ds2 r hrest ih1 ih2 =>
    intro hidx x hx
    rw [walkEntries] at hx
    rw [hsub, hrest] at hx
    simp only [List.mem_append] at hx
    rcases hx with hx | hx
    · exact ih1 hW x (by rw [hsub]; exact hx)
    · exact ih2 hidx x (by rw [hrest]; exact hx)
  | case8 date nm rest idx ds2 r hrest ih =>
    intro hidx x hx
    rw [walkEntries] at hx
    rw [hrest] at hx
    rcases List.mem_cons.mp hx with hx | hx
    · rw [hx]; exact hidx
    · exact ih (Nat.mod_lt _ hW) x (by rw [hrest]; exact hx)

/-- When a walk of an entry list succeeds, the `(file name, label)` pairs of
its dispatched sends are exactly those where each file is labelled with the
name of its immediate parent directory. -/
theorem walkEntries_labels (W : Nat) (date : String) (es : List Fsys) (idx : Nat) :
    ∀ k, (walkEntries W date es idx).2 = Except.ok k →
      (walkEntries W date es idx).1.map (fun d => (d.fileName, d.date))
        = parentLabels date es := by
  induction date, es, idx using walkEntries.induct W with
  | case1 date idx =>
    intro k _
    simp [walkEntries, parentLabels]
  | case2 date rest idx ih =>
    intro k hk
    rw [walkEntries] at hk ⊢
    rw [parentLabels]
    exact ih k hk
  | case3 date rest idx =>
    intro k hk
    rw [walkEntries] at hk
    exact absurd hk (by simp)
  | case4 date rest idx =>
    intro k hk
    rw [walkEntries] at hk
    exact absurd hk (by simp)
  | case5 date sub rest idx =>
    intro k hk
    rw [walkEntries] at hk
    exact absurd hk (by simp)
  | case6 date d sub rest idx ds e hsub ih =>
    intro k hk
    rw [walkEntries] at hk
    rw [hsub] at hk
    exact absurd hk (by simp)
  | case7 date d sub rest idx ds k0 hsub ds2 r hrest ih1 ih2 =>
    intro k hk
    rw [walkEntries] at hk ⊢
    rw [hsub, hrest] at hk ⊢
    simp only at hk
    rw [parentLabels]
    have h1 := ih1 k0 (by rw [hsub])
    have h2 := ih2 k (by rw [hrest]; exact hk)
    rw [hsub] at h1
    rw [hrest] at h2
    simp only [List.map_append]
    rw [h1, h2]
  | case8 date nm rest idx ds2 r hrest ih =>
    intro k hk
    rw [walkEntries] at hk ⊢
    rw [hrest] at hk ⊢
    simp only at hk
    rw [parentLabels]
    have h := ih k (by rw [hrest]; exact hk)
    rw [hrest] at h
    simp only [List.map_cons]
    rw [h]

/-- In a directory containing only regular files, the entry loop started at
cursor `idx < W` sends the `k`-th file to worker `(idx + k) % W`. -/
theorem walkEntries_flat (W : Nat) (hW : 0 < W) (date : String) (es : List Fsys) :
    ∀ idx, idx < W → es.all Fsys.isFile = true →
      (walkEntries W date es idx).1.map Dispatch.worker
        = (List.range es.length).map (fun k => (idx + k) % W) := by
  induction es with
  | nil =>
    intro idx _ _
    simp [walkEntries]
  | cons e rest ih =>
    intro idx hidx hall
    cases e with
    | errEntry => simp [List.all_cons, Fsys.isFile] at hall
    | statError => simp [List.all_cons, Fsys.isFile] at hall
    | dirUnreadable => simp [List.all_cons, Fsys.isFile] at hall
    | dir nm sub => simp [List.all_cons, Fsys.isFile] at hall
    | file nm =>
      have hall' : rest.all Fsys.isFile = true := by
        simp only [List.all_cons, Bool.and_eq_true] at hall
        exact hall.2
      rcases hrec : walkEntries W date rest ((idx + 1) % W) with ⟨ds, r⟩
      rw [walkEntries, hrec]
      have h := ih ((idx + 1) % W) (Nat.mod_lt _ hW) hall'
      rw [hrec] at h
      simp only at h
      simp only [List.map_cons, h, List.length_cons, List.range_succ_eq_map,
        List.map_map]
      have hfun : (fun k => ((idx + 1) % W + k) % W)
          = ((fun k => (idx + k) % W) ∘ Nat.succ) := by
        funext k
        simp only [Function.comp, Nat.mod_add_mod]
        congr 1
        omega
      rw [hfun]
      have hhead : idx = (idx + 0) % W := by
        rw [Nat.add_zero, Nat.mod_eq_of_lt hidx]
      rw [← hhead]

/-- Concrete file-system tree refuting claim C1: a root named `r` holding one
subdirectory named `s` which holds one file named `a`. -/
def c1tree : Fsys :=
  .dir (some "r") [.dir (some "s") [.file (some "a")]]

/-- Claim C1 counterexample: walking the root `r` of `c1tree` dispatches the
file `a` with context label `s` — the name of its immediate parent directory —
and not with the name `r` of the top-level root being walked, because
`handle_dir` recomputes `date` from the current directory at every level of
recursion. -/
theorem c1_counterexample :
    (handle_dir 1 c1tree).1 = [⟨0, some "a", "s"⟩] ∧ ("s" : String) ≠ "r" := by
  constructor
  · simp only [c1tree, handle_dir, walkEntries, List.append_nil]
  · decide

/-- Claim C1 (amended): the context label attached to each dispatched `File`
task is the name of the file's immediate parent directory — recomputed by
`get_filename` at every level of recursion — not the name of the top-level
root; on a successful walk the dispatched `(file, label)` pairs are exactly
the files of the tree paired with their immediate parents' names. -/
theorem c1_amended (W : Nat) (name : String) (es : List Fsys)
    (h : (handle_dir W (Fsys.dir (some name) es)).2 = Except.ok ()) :
    (handle_dir W (Fsys.dir (some name) es)).1.map (fun d => (d.fileName, d.date))
      = parentLabels name es := by
  rcases hw : walkEntries W name es 0 with ⟨ds, r⟩
  cases r with
  | error e =>
    rw [handle_dir] at h
    rw [hw] at h
    simp at h
  | ok k =>
    have hl := walkEntries_labels W name es 0 k (by rw [hw])
    rw [hw] at hl
    rw [handle_dir_fst, hw]
    exact hl

/-- Witness for `c1_amended` on a one-file root. -/
theorem c1_amended_witness :
    (handle_dir 1 (Fsys.dir (some "r") [Fsys.file (some "a")])).1.map
        (fun d => (d.fileName, d.date))
      = parentLabels "r" [Fsys.file (some "a")] :=
  c1_amended 1 "r" [Fsys.file (some "a")]
    (by simp only [handle_dir, walkEntries])

/-- Concrete file-system tree refuting claim C4: a root whose first entry
fails `file_type()` and whose second entry is a regular file. -/
def c4tree : Fsys :=
  .dir (some "r") [.statError, .file (some "a")]

/-- Claim C4 counterexample: a stat-style failure (an entry that cannot be
classified) below the root is not skipped with a warning — `file_type()?`
propagates it, the walk aborts as a fatal error, and the remaining file `a`
is never dispatched. -/
theorem c4_counterexample :
    handle_dir 1 c4tree = ([], Except.error BattleSearchError.io_error) := by
  simp only [c4tree, handle_dir, walkEntries]

/-- Claim C4 (amended): an `Err` entry yielded by the directory iterator is
skipped silently (no warning is logged) and the walk of the remaining entries
continues unchanged; a failure to classify an entry (`file_type` failure) and
a directory-read failure at any depth — not only at the root — abort the walk
as a fatal error to the caller. -/
theorem c4_amended (W : Nat) (date : String) (rest : List Fsys) (idx : Nat) :
    walkEntries W date (Fsys.errEntry :: rest) idx = walkEntries W date rest idx ∧
    walkEntries W date (Fsys.statError :: rest) idx
      = ([], Except.error BattleSearchError.io_error) ∧
    walkEntries W date (Fsys.dirUnreadable :: rest) idx
      = ([], Except.error BattleSearchError.io_error) := by
  refine ⟨?_, ?_, ?_⟩ <;> rw [walkEntries]

/-- Concrete file-system tree refuting claim C5: a root named `r` holding a
subdirectory `s` with one file `a`, followed by a file `b` directly in `r`. -/
def c5tree : Fsys :=
  .dir (some "r") [.dir (some "s") [.file (some "a")], .file (some "b")]

/-- Claim C5 counterexample: with two workers, walking `c5tree` dispatches two
`File` tasks and both go to worker 0 — task number 1 does not go to worker
`1 % 2 = 1` — because `current_sender_idx` is a local variable of each
`handle_dir` invocation, reset to 0 per directory, not a single shared cursor
of the whole run. -/
theorem c5_counterexample :
    (handle_dir 2 c5tree).1.map Dispatch.worker = [0, 0] ∧
    ([0, 0] : List Nat) ≠ [0 % 2, 1 % 2] := by
  constructor
  · simp only [c5tree, handle_dir, walkEntries, List.append_nil]
    rfl
  · decide

/-- Claim C5 (amended): the round-robin cursor is local to each `handle_dir`
invocation and restarts at 0 for every directory (including every recursive
call); consequently the modulo-`W` round robin holds only among the files
directly contained in one directory: in a directory holding only regular
files, the `k`-th file (0-indexed, in entry order) is sent to worker
`k % W`. -/
theorem c5_amended (W : Nat) (date : String) (es : List Fsys)
    (hW : 0 < W) (hflat : es.all Fsys.isFile = true) :
    (handle_dir W (Fsys.dir (some date) es)).1.map Dispatch.worker
      = (List.range es.length).map (fun k => k % W) := by
  rw [handle_dir_fst]
  have h := walkEntries_flat W hW date es 0 hW hflat
  simpa using h

/-- Witness for `c5_amended`: three files across two workers go to workers
`[0, 1, 0]`. -/
theorem c5_amended_witness :
    (handle_dir 2 (Fsys.dir (some "r")
        [Fsys.file (some "a"), Fsys.file (some "b"), Fsys.file (some "c")])).1.map
      Dispatch.worker
      = (List.range 3).map (fun k => k % 2) :=
  c5_amended 2 "r" [Fsys.file (some "a"), Fsys.file (some "b"), Fsys.file (some "c")]
    (by decide) (by decide)

/-- Claim C10: with at least one worker queue, every send performed by
`handle_dir` uses a cursor value strictly below the number of queues, so the
indexed queue lookup (`threads.get(current_sender_idx).unwrap()`) cannot fail
and the modulo in the cursor update never divides by zero. -/
theorem c10_cursor_in_bounds (W : Nat) (root : Fsys) (hW : 0 < W) :
    ∀ d ∈ (handle_dir W root).1,
      d.worker < W ∧
        ∀ queues : List (List Task), queues.length = W →
          (queues[d.worker]?).isSome = true := by
  intro d hd
  have hdw : d.worker < W := by
    cases root with
    | errEntry => simp [handle_dir] at hd
    | statError => simp [handle_dir] at hd
    | file nm => simp [handle_dir] at hd
    | dirUnreadable => simp [handle_dir] at hd
    | dir nm es =>
      cases nm with
      | none => simp [handle_dir] at hd
      | some date =>
        rw [handle_dir_fst] at hd
        exact walkEntries_worker_lt W hW date es 0 hW d hd
  refine ⟨hdw, ?_⟩
  intro queues hlen
  rw [List.getElem?_eq_getElem (by rw [hlen]; exact hdw)]
  rfl

/-- Witness for `c10_cursor_in_bounds` on a one-file root with one worker:
the single dispatch uses worker index 0, below 1, and the lookup into a
one-queue list succeeds there. -/
theorem c10_witness :
    (Dispatch.mk 0 (some "a") "r").worker < 1 ∧
    (([[]] : List (List Task))[(Dispatch.mk 0 (some "a") "r").worker]?).isSome
      = true := by
  have hmem : Dispatch.mk 0 (some "a") "r"
      ∈ (handle_dir 1 (Fsys.dir (some "r") [Fsys.file (some "a")])).1 := by
    simp only [handle_dir, walkEntries]
    exact List.mem_singleton.mpr rfl
  have h := c10_cursor_in_bounds 1 (Fsys.dir (some "r") [Fsys.file (some "a")])
    (by decide) (Dispatch.mk 0 (some "a") "r") hmem
  exact ⟨h.1, h.2 [[]] rfl⟩

/-- Claim C2: a `File` task whose extracted fields are missing `p1` or `p2`
(the result of an invalid or malformed JSON document under the extraction
contract) makes the worker log exactly one diagnostic and print nothing, and
the worker then continues: the tasks after the bad one are processed exactly
as they would have been without it, and the worker's final state is unchanged
— one bad file never terminates the worker. -/
theorem c2_bad_file_isolated (s : BattleSearcher) (fileName : Option String)
    (date : String) (j : ExtractedFields) (rest : List Task)
    (h : j.p1 = none ∨ j.p2 = none) :
    ∃ msg,
      worker_run s (Task.File fileName date (FileData.readable j) :: rest) =
        ⟨(worker_run s rest).output, msg :: (worker_run s rest).logs,
          (worker_run s rest).state⟩ := by
  have herr : ∃ e, check_log s fileName date (FileData.readable j)
      = Except.error e := by
    rcases h with h | h
    · exact ⟨.FaultyJSON "No p1 value", by simp [check_log, h, bytes_to_id]⟩
    · cases hp1 : j.p1 with
      | none =>
        exact ⟨.FaultyJSON "No p1 value", by simp [check_log, hp1, bytes_to_id]⟩
      | some a =>
        exact ⟨.FaultyJSON "No p2 value", by simp [check_log, hp1, h, bytes_to_id]⟩
  rcases herr with ⟨e, he⟩
  refine ⟨worker_log_line fileName e, ?_⟩
  simp [worker_run, run_file, he]

/-- Witness for `c2_bad_file_isolated`: a file with no `p1` field followed by
the terminate signal. -/
theorem c2_witness :
    ∃ msg,
      worker_run (BattleSearcher.new "annika" false false)
          (Task.File (some "f") "d"
              (FileData.readable ⟨none, some "\"Bob\"", none, none⟩) :: [Task.Done]) =
        ⟨(worker_run (BattleSearcher.new "annika" false false) [Task.Done]).output,
          msg :: (worker_run (BattleSearcher.new "annika" false false) [Task.Done]).logs,
          (worker_run (BattleSearcher.new "annika" false false) [Task.Done]).state⟩ :=
  c2_bad_file_isolated (BattleSearcher.new "annika" false false) (some "f") "d"
    ⟨none, some "\"Bob\"", none, none⟩ [Task.Done] (Or.inl rfl)

/-- A worker whose queue is a run of `File` tasks followed by `Done` processes
every `File` task (producing exactly the drained output and diagnostics) and
then terminates. -/
theorem worker_run_drained (s : BattleSearcher) (q : List Task)
    (h : ∀ t ∈ q, Task.isDone t = false) :
    worker_run s (q ++ [Task.Done])
      = ⟨(drain s q).1, (drain s q).2, WorkerState.Terminated⟩ := by
  induction q with
  | nil => simp [worker_run, drain]
  | cons t rest ih =>
    cases t with
    | Done =>
      have := h Task.Done (List.mem_cons_self _ _)
      simp [Task.isDone] at this
    | File fn date data =>
      have hrest : ∀ t ∈ rest, Task.isDone t = false :=
        fun t ht => h t (List.mem_cons_of_mem _ ht)
      simp [worker_run, drain, ih hrest]

/-- Appending the terminate signal to a `Done`-free queue yields a queue with
exactly one terminate task. -/
theorem count_terminates_drained (q : List Task)
    (h : ∀ t ∈ q, Task.isDone t = false) :
    count_terminates (q ++ [Task.Done]) = 1 := by
  rw [count_terminates, List.filter_append]
  have hnil : q.filter Task.isDone = [] := by
    rw [List.filter_eq_nil_iff]
    intro a ha
    simp [h a ha]
  rw [hnil]
  rfl

/-- Claim C3: shutdown appends exactly one `Done` (terminate) task to every
worker's queue after all dispatch calls have completed; every worker then
processes each `File` task dispatched to it before its terminate signal —
producing exactly the output and diagnostics of draining its whole queue —
and reaches the `Terminated` state, so no worker is still running. -/
theorem c3_shutdown_drains (s : BattleSearcher) (queues : List (List Task))
    (h : ∀ q ∈ queues, ∀ t ∈ q, Task.isDone t = false) :
    shutdown queues = queues.map (fun q => q ++ [Task.Done]) ∧
    ∀ q ∈ queues,
      count_terminates (q ++ [Task.Done]) = 1 ∧
      worker_run s (q ++ [Task.Done])
        = ⟨(drain s q).1, (drain s q).2, WorkerState.Terminated⟩ := by
  refine ⟨rfl, ?_⟩
  intro q hq
  exact ⟨count_terminates_drained q (h q hq), worker_run_drained s q (h q hq)⟩

/-- Witness for `c3_shutdown_drains`: two queues, one holding a single `File`
task and one empty. -/
theorem c3_witness :
    shutdown [[Task.File (some "f") "d" FileData.unreadable], []]
        = [[Task.File (some "f") "d" FileData.unreadable], []].map
            (fun q => q ++ [Task.Done]) ∧
    ∀ q ∈ [[Task.File (some "f") "d" FileData.unreadable], []],
      count_terminates (q ++ [Task.Done]) = 1 ∧
      worker_run (BattleSearcher.new "annika" false false) (q ++ [Task.Done])
        = ⟨(drain (BattleSearcher.new "annika" false false) q).1,
            (drain (BattleSearcher.new "annika" false false) q).2,
            WorkerState.Terminated⟩ :=
  c3_shutdown_drains (BattleSearcher.new "annika" false false)
    [[Task.File (some "f") "d" FileData.unreadable], []] (by decide)

/-- The document of the C6 end-to-end scenario:
`p1:"Annika", p2:"Bob", winner:null, endType:"forfeit"` (raw extracted values
keep their JSON quotes; the absent `winner` extracts to `none`). -/
def c6fields : ExtractedFields :=
  ⟨some "\"Annika\"", some "\"Bob\"", none, some "\"forfeit\""⟩

/-- Claim C6: for the document `p1:"Annika", p2:"Bob", winner:null,
endType:"forfeit"` with searched user `annika`, wins_only=false and
forfeits_only=true, evaluation produces a report whose outcome description is
`there was no winner`, and the forfeit branch is taken
(`is_forfeit_of` holds on the document's `endType`). -/
theorem c6_forfeit_no_winner :
    check_log (BattleSearcher.new "annika" false true) (some "battle-x.log.json")
        "2020-05-12" (FileData.readable c6fields)
      = Except.ok
          (some "(2020-05-12) <<battle-x>> annika vs. bob (there was no winner)") ∧
    is_forfeit_of c6fields.endType = true := by
  constructor <;> decide

/-- Claim C7 counterexample: for a reported match whose file is named
`x.log.jsony`, the spec's room name (only a trailing `.log.json` suffix
removed) is `x.log.jsony` itself, but the printed line contains `<<xy>>`:
the code removes every occurrence of `.log.json`, not just a trailing
suffix. -/
theorem c7_counterexample :
    check_log (BattleSearcher.new "annika" false false) (some "x.log.jsony") "d"
        (FileData.readable ⟨some "\"Annika\"", some "\"Bob\"", some "\"Annika\"", none⟩)
      = Except.ok (some "(d) <<xy>> annika vs. bob (annika won normally)") ∧
    spec_trailing_room "x.log.jsony" = "x.log.jsony" ∧
    "(d) <<xy>> annika vs. bob (annika won normally)"
      ≠ "(d) <<x.log.jsony>> annika vs. bob (annika won normally)" := by
  refine ⟨by decide, by decide, by decide⟩

/-- Claim C7 (amended): every printed report line has the exact form
`(<context_label>) <<<room_name>>> <player1_id> vs. <player2_id>
(<outcome_description>)`, where `room_name` is the file name (with the
`unknown file` fallback) with every occurrence of `.log.json` removed —
not only a trailing suffix. -/
theorem c7_amended (s : BattleSearcher) (fileName : Option String) (date : String)
    (data : FileData) (line : String)
    (h : check_log s fileName date data = Except.ok (some line)) :
    ∃ j a b, data = FileData.readable j ∧ j.p1 = some a ∧ j.p2 = some b ∧
      line = format_line date (room_of fileName) (str_to_id a) (str_to_id b)
        (win_str_of (bytes_to_id j.winner) (is_forfeit_of j.endType)) := by
  cases data with
  | unreadable => simp [check_log] at h
  | readable j =>
    cases hp1 : j.p1 with
    | none => simp [check_log, hp1, bytes_to_id] at h
    | some a =>
      cases hp2 : j.p2 with
      | none => simp [check_log, hp1, hp2, bytes_to_id] at h
      | some b =>
        refine ⟨j, a, b, rfl, hp1, hp2, ?_⟩
        simp only [check_log, hp1, hp2, bytes_to_id] at h
        split at h
        · exact absurd h (by simp)
        · split at h
          · exact absurd h (by simp)
          · split at h
            · exact absurd h (by simp)
            · simp only [Except.ok.injEq, Option.some.injEq] at h
              exact h.symm

/-- Witness for `c7_amended`: a report for a winnerless match in file `f`. -/
theorem c7_witness :
    ∃ j a b,
      FileData.readable ⟨some "\"Annika\"", some "\"Bob\"", none, none⟩
          = FileData.readable j ∧
      j.p1 = some a ∧ j.p2 = some b ∧
      "(d) <<f>> annika vs. bob (there was no winner)"
        = format_line "d" (room_of (some "f")) (str_to_id a) (str_to_id b)
            (win_str_of (bytes_to_id j.winner) (is_forfeit_of j.endType)) :=
  c7_amended (BattleSearcher.new "annika" false false) (some "f") "d"
    (FileData.readable ⟨some "\"Annika\"", some "\"Bob\"", none, none⟩)
    "(d) <<f>> annika vs. bob (there was no winner)" (by decide)

/-- Claim C8: with `wins_only = true`, for a document whose `p1`/`p2` are
present and in which the searched user is one of the two players, evaluation
reports nothing whenever the winner field is absent or the normalized winner
id differs from the searched id, and a report is produced only when the
normalized winner id equals the searched id. -/
theorem c8_wins_only (s : BattleSearcher) (fileName : Option String)
    (date : String) (j : ExtractedFields) (a b : String)
    (hw : s.wins_only = true) (hp1 : j.p1 = some a) (hp2 : j.p2 = some b)
    (hplayer : str_to_id a = s.user_id ∨ str_to_id b = s.user_id) :
    ((j.winner = none ∨ ∀ w, j.winner = some w → str_to_id w ≠ s.user_id) →
      check_log s fileName date (FileData.readable j) = Except.ok none) ∧
    (∀ line, check_log s fileName date (FileData.readable j)
        = Except.ok (some line) →
      ∃ w, j.winner = some w ∧ str_to_id w = s.user_id) := by
  constructor
  · intro hwin
    cases hw0 : j.winner with
    | none =>
      simp [check_log, hp1, hp2, bytes_to_id, hw0, searched_user_won_of, hw]
    | some w =>
      have hne : str_to_id w ≠ s.user_id := by
        rcases hwin with hnone | hne
        · rw [hw0] at hnone
          exact absurd hnone (by simp)
        · exact hne w hw0
      simp [check_log, hp1, hp2, bytes_to_id, hw0, searched_user_won_of, hw,
        beq_iff_eq, hne]
  · intro line hline
    cases hw0 : j.winner with
    | none =>
      simp [check_log, hp1, hp2, bytes_to_id, hw0, searched_user_won_of, hw]
        at hline
    | some w =>
      refine ⟨w, rfl, ?_⟩
      by_contra hne
      simp [check_log, hp1, hp2, bytes_to_id, hw0, searched_user_won_of, hw,
        beq_iff_eq, hne] at hline

/-- Witness for `c8_wins_only`: winner absent, searched user is player 1,
wins_only set — no report is produced. -/
theorem c8_witness :
    check_log (BattleSearcher.new "annika" true false) (some "f") "d"
        (FileData.readable
          (ExtractedFields.mk (some "\"Annika\"") (some "\"Bob\"") none none))
      = Except.ok none :=
  (c8_wins_only (BattleSearcher.new "annika" true false) (some "f") "d"
    (ExtractedFields.mk (some "\"Annika\"") (some "\"Bob\"") none none)
    "\"Annika\"" "\"Bob\"" rfl rfl rfl (Or.inl (by decide))).1 (Or.inl rfl)

/-- Claim C9: with `forfeits_only = true`, a report is produced only when the
`endType` field is present and its raw value is the quoted literal token
`"forfeit"` (the decoded string value of the extracted bytes); and an absent
`endType` is treated as "not a forfeit" and is never an error: with `p1`/`p2`
present it yields a clean no-report result. -/
theorem c9_forfeits_only (s : BattleSearcher) (fileName : Option String)
    (date : String) (j : ExtractedFields) (hf : s.forfeits_only = true) :
    (∀ line, check_log s fileName date (FileData.readable j)
        = Except.ok (some line) →
      j.endType = some "\"forfeit\"") ∧
    (∀ a b, j.p1 = some a → j.p2 = some b → j.endType = none →
      check_log s fileName date (FileData.readable j) = Except.ok none) := by
  constructor
  · intro line hline
    cases hp1 : j.p1 with
    | none => simp [check_log, hp1, bytes_to_id] at hline
    | some a =>
      cases hp2 : j.p2 with
      | none => simp [check_log, hp1, hp2, bytes_to_id] at hline
      | some b =>
        cases he : j.endType with
        | none =>
          simp [check_log, hp1, hp2, bytes_to_id, he, is_forfeit_of, hf] at hline
        | some t =>
          rw [Option.some.injEq]
          by_contra hnt
          simp [check_log, hp1, hp2, bytes_to_id, he, is_forfeit_of, hf,
            beq_iff_eq, hnt] at hline
  · intro a b hp1 hp2 he
    simp [check_log, hp1, hp2, bytes_to_id, he, is_forfeit_of, hf]

/-- Witness for `c9_forfeits_only`: a forfeited match involving the searched
user, and the clean no-report result on an absent `endType`. -/
theorem c9_witness :
    (∀ line, check_log (BattleSearcher.new "annika" false true) (some "f") "d"
        (FileData.readable
          (ExtractedFields.mk (some "\"Annika\"") (some "\"Bob\"") none none))
        = Except.ok (some line) →
      (ExtractedFields.mk (some "\"Annika\"") (some "\"Bob\"") none none).endType
        = some "\"forfeit\"") ∧
    (∀ a b,
      (ExtractedFields.mk (some "\"Annika\"") (some "\"Bob\"") none none).p1
          = some a →
      (ExtractedFields.mk (some "\"Annika\"") (some "\"Bob\"") none none).p2
          = some b →
      (ExtractedFields.mk (some "\"Annika\"") (some "\"Bob\"") none none).endType
          = none →
      check_log (BattleSearcher.new "annika" false true) (some "f") "d"
          (FileData.readable
            (ExtractedFields.mk (some "\"Annika\"") (some "\"Bob\"") none none))
        = Except.ok none) :=
  c9_forfeits_only (BattleSearcher.new "annika" false true) (some "f") "d"
    (ExtractedFields.mk (some "\"Annika\"") (some "\"Bob\"") none none) rfl

end Battlesearch
